import Mathlib

/-!
Shallow embedding of the Google Slides Team Manager (src/i.py): the shared
JSON state (users, slides, activities), the file-merge logic, the registry
handlers (register, delete, check-for-updates) and the report builders
(combined PDF / HTML), together with theorems checking the specification.

Conventions: Python dicts of users become association lists keyed by
username; Python lists keep their order; timestamps are the formatted
strings the code stores; `hashlib.sha256(...).hexdigest` is treated as an
opaque primitive and passed in as a `hashFn` parameter; Streamlit/network
collaborators are passed in as function parameters (`fetch`) or booleans
describing their observable outcome.
-/

/-- A user record, as stored in `shared_data['users']` (src/i.py lines 43,
53-55, 804-807): `password` holds the hex digest, `role` is the string
`"member"` or `"admin"`, `last_login` is set on login (line 782). -/
structure User where
  password : String
  role : String
  last_login : Option String := none
deriving DecidableEq

/-- A presentation record, as stored in `shared_data['slides']`
(src/i.py lines 1234-1244). -/
structure Slide where
  presentation_id : String
  title : String
  presentation_link : String := ""
  description : String := ""
  uploader : String
  upload_date : String := ""
  slide_count : Nat
  last_modified : String
  status : String := "active"
deriving DecidableEq

/-- An activity-log record, as appended by `log_activity`
(src/i.py lines 168-177). -/
structure Activity where
  timestamp : String
  user : String
  action : String
  details : String
deriving DecidableEq

/-- The whole shared aggregate, one JSON document
(src/i.py lines 52-58). -/
structure SharedState where
  users : List (String × User)
  slides : List Slide
  activities : List Activity
deriving DecidableEq

/-- Presentation metadata returned by `get_presentation_details`
(src/i.py lines 236-247); the embedding keeps the two fields the callers
use. -/
structure Meta where
  title : String
  slide_count : Nat
deriving DecidableEq

/-- A parsed on-disk JSON document, as read by `load_shared_state`
(src/i.py lines 68-76): each top-level key may be absent.  A `FileData`
value stands for a truthy (non-empty) parsed object; the absent /
unreadable / falsy cases are the `none` of `Option FileData` at the call
sites. -/
structure FileData where
  users : Option (List (String × User))
  slides : Option (List Slide)
  activities : Option (List Activity)
deriving DecidableEq

/-- The keys (`presentation_id`) of a slides list, mirroring
`{slide['presentation_id'] for slide in ...}` (src/i.py line 94). -/
def slideKeys (l : List Slide) : List String :=
  l.map (fun s => s.presentation_id)

/-- First slide with the given `presentation_id`, mirroring the linear
scans of src/i.py (lines 101-102, 1158-1161, 1317-1318). -/
def findSlide (l : List Slide) (pid : String) : Option Slide :=
  l.find? (fun s => s.presentation_id == pid)

/-- The inner loop of the slide merge (src/i.py lines 101-109): scan for
the first record with the same `presentation_id`; if the file copy has a
strictly greater `last_modified` string replace the record wholesale,
otherwise keep it; stop at the first match either way. -/
def updateFirst (l : List Slide) (fs : Slide) : List Slide :=
  match l with
  | [] => []
  | s :: rest =>
    if s.presentation_id = fs.presentation_id then
      (if s.last_modified < fs.last_modified then fs else s) :: rest
    else
      s :: updateFirst rest fs

/-- One iteration of the merge loop over file slides (src/i.py lines
96-109): `ids` is the set of session ids computed once at line 94;
disk-only records are appended, records present in both are reconciled by
`updateFirst`. -/
def mergeSlidesStep (ids : List String) (acc : List Slide) (fs : Slide) : List Slide :=
  if fs.presentation_id ∈ ids then updateFirst acc fs else acc ++ [fs]

/-- The slide part of `merge_shared_state` (src/i.py lines 92-109). -/
def mergeSlides (session file : List Slide) : List Slide :=
  file.foldl (mergeSlidesStep (slideKeys session)) session

/-- Whether a username is a key of the users mapping, mirroring
`username in shared_data['users']` (src/i.py lines 89, 154, 797). -/
def hasUser (users : List (String × User)) (u : String) : Bool :=
  users.any (fun kv => kv.1 == u)

/-- The user part of `merge_shared_state` (src/i.py lines 86-90): file
usernames absent from the (growing) session mapping are copied in; session
entries are never overwritten. -/
def mergeUsers (session file : List (String × User)) : List (String × User) :=
  file.foldl (fun acc kv => if hasUser acc kv.1 then acc else acc ++ [kv]) session

/-- The activity part of `merge_shared_state` (src/i.py lines 111-115):
file records not already present (full structural equality) are appended in
file order. -/
def mergeActivities (session file : List Activity) : List Activity :=
  file.foldl (fun acc a => if a ∈ acc then acc else acc ++ [a]) session

/-- `merge_shared_state` (src/i.py lines 78-117).  Its call to
`load_shared_state` is the `fileData` argument: `none` models a missing or
unreadable backing file (load returned `None`) or a falsy parse, on which
the function returns at line 82 before any merging or saving.  The returned
`Bool` records whether `save_shared_state` was reached (line 117). -/
def merge_shared_state (fileData : Option FileData) (session : SharedState) :
    SharedState × Bool :=
  match fileData with
  | none => (session, false)
  | some fd =>
    let users2 := match fd.users with
      | some fu => mergeUsers session.users fu
      | none => session.users
    let slides2 := match fd.slides with
      | some fsl => mergeSlides session.slides fsl
      | none => session.slides
    let acts2 := match fd.activities with
      | some fa => mergeActivities session.activities fa
      | none => session.activities
    (⟨users2, slides2, acts2⟩, true)

/-- The bootstrap users mapping `{'admin': {'password': sha256('admin123'),
'role': 'admin'}}` (src/i.py lines 43, 53-55). -/
def adminUsers (hashFn : String → String) : List (String × User) :=
  [("admin", { password := hashFn "admin123", role := "admin" })]

/-- The bootstrap default state returned by `initialize_shared_state` when
the file is unusable (src/i.py lines 52-58). -/
def defaultSharedState (hashFn : String → String) : SharedState :=
  ⟨adminUsers hashFn, [], []⟩

/-- The observable condition of the backing file when
`initialize_shared_state` runs: absent (`os.path.exists` false), present
but unreadable (open raises), present but malformed (json.load raises, or
the parse is not an object so the key fixups raise), or parsed into an
object whose three top-level keys may each be missing. -/
inductive FileCondition where
  | absent
  | unreadable
  | malformed
  | parsed (users : Option (List (String × User))) (slides : Option (List Slide))
      (activities : Option (List Activity))

/-- `initialize_shared_state` (src/i.py lines 36-58): everything runs under
`try ... except: pass`; the absent-file case falls through the `if`, every
exception falls through the `except`, and both end at the bootstrap default
of lines 52-58; a successful parse gets each missing top-level key filled
with its default (lines 42-47) and is returned as-is otherwise. -/
def initialize_shared_state (hashFn : String → String) :
    FileCondition → SharedState
  | .parsed u s a => ⟨u.getD (adminUsers hashFn), s.getD [], a.getD []⟩
  | _ => defaultSharedState hashFn

/-- Outcome of the Register-tab handler; the constructors name the error
messages of src/i.py lines 798, 800, 802 and the success branch. -/
inductive RegResult where
  | ok
  | duplicateUser
  | passwordMismatch
  | weakPassword
deriving DecidableEq

/-- The Register-tab handler (src/i.py lines 796-811), in its source order:
duplicate username first (line 797), then password/confirmation mismatch
(line 799), then the length-6 policy (line 801); on success the user is
stored with the hashed password and role `member` (lines 804-807) and a
REGISTER activity is appended by `log_activity` (line 809).  `hashFn`
stands for `hash_password` (sha256 hexdigest, line 150-151), `now` for
`datetime.now().strftime(...)`. -/
def register (hashFn : String → String) (now : String) (st : SharedState)
    (username pw confirm : String) : RegResult × SharedState :=
  if hasUser st.users username then (.duplicateUser, st)
  else if pw ≠ confirm then (.passwordMismatch, st)
  else if pw.length < 6 then (.weakPassword, st)
  else
    (.ok, { st with
      users := st.users ++ [(username, { password := hashFn pw, role := "member" })],
      activities := st.activities ++
        [⟨now, username, "REGISTER", "New user registered"⟩] })

/-- The per-record effect of `check_for_updates` on a slide record
(src/i.py lines 260-271): a failed fetch leaves the record alone; a
successful fetch rewrites `slide_count`, `last_modified` and `title` when
the fetched count differs. -/
def update_step (fetch : String → Option Meta) (now : String) (s : Slide) : Slide :=
  match fetch s.presentation_id with
  | none => s
  | some d =>
    if d.slide_count ≠ s.slide_count then
      { s with slide_count := d.slide_count, last_modified := now, title := d.title }
    else s

/-- The activities `check_for_updates` appends for one record (src/i.py
lines 270-271): one SLIDE_UPDATE entry per detected count change, logged
with the freshly fetched title (the record is mutated before the log
call). -/
def update_acts (fetch : String → Option Meta) (now : String) (s : Slide) :
    List Activity :=
  match fetch s.presentation_id with
  | none => []
  | some d =>
    if d.slide_count ≠ s.slide_count then
      [⟨now, s.uploader, "SLIDE_UPDATE",
        "Updated \x27" ++ d.title ++ "\x27 from " ++ toString s.slide_count ++
        " to " ++ toString d.slide_count ++ " slides"⟩]
    else []

/-- The scan of `check_for_updates` (src/i.py lines 249-279): each record
is visited in order; `get_presentation_details` (the `fetch` argument)
returns `none` on any remote failure, in which case the record is skipped
and the loop continues; detected count changes update the record in place
and log a SLIDE_UPDATE activity. -/
def check_for_updates (fetch : String → Option Meta) (now : String) :
    List Slide → List Activity → List Slide × List Activity
  | [], acts => ([], acts)
  | s :: rest, acts =>
    match fetch s.presentation_id with
    | none =>
      let r := check_for_updates fetch now rest acts
      (s :: r.1, r.2)
    | some d =>
      if d.slide_count ≠ s.slide_count then
        let s2 : Slide :=
          { s with slide_count := d.slide_count, last_modified := now, title := d.title }
        let act : Activity :=
          ⟨now, s.uploader, "SLIDE_UPDATE",
            "Updated \x27" ++ d.title ++ "\x27 from " ++ toString s.slide_count ++
            " to " ++ toString d.slide_count ++ " slides"⟩
        let r := check_for_updates fetch now rest (acts ++ [act])
        (s2 :: r.1, r.2)
      else
        let r := check_for_updates fetch now rest acts
        (s :: r.1, r.2)

/-- Remove the first slide with the given id, returning it and the rest,
mirroring the enumerate / pop(i) / break loops of src/i.py lines 1317-1325
and 1491-1498. -/
def removeFirst (pid : String) : List Slide → Option (Slide × List Slide)
  | [] => none
  | s :: rest =>
    if s.presentation_id = pid then some (s, rest)
    else (removeFirst pid rest).map (fun p => (p.1, s :: p.2))

/-- What a removal attempt observably did.  The code only ever removes a
record or does nothing; `notFound` and `forbidden` name the failure values
the specification's `removePresentation` contract describes, and are used
to state that the code never produces them. -/
inductive RemoveOutcome where
  | removed (action : String)
  | notFound
  | forbidden
  | noOp
deriving DecidableEq

/-- The two delete paths of the UI combined into one operation.  With
`isAdmin` true, the Admin-tab Remove handler (src/i.py lines 1490-1498)
pops the record whatever its uploader and logs ADMIN_DELETE; otherwise the
My-Uploads Delete handler (lines 1316-1325) runs only for records whose
`uploader` equals the acting user (the tab lists only `my_slides`, line
1272) and logs DELETE; in every other situation the UI offers no removal
action and nothing happens — in particular an absent id is a silent no-op,
not an error. -/
def removePresentation (now : String) (slides : List Slide) (acts : List Activity)
    (pid actingUser : String) (isAdmin : Bool) :
    List Slide × List Activity × RemoveOutcome :=
  if isAdmin then
    match removeFirst pid slides with
    | some (s, rest) =>
      (rest, acts ++ [⟨now, actingUser, "ADMIN_DELETE",
        "Admin removed \x27" ++ s.title ++ "\x27"⟩], .removed "ADMIN_DELETE")
    | none => (slides, acts, .noOp)
  else
    match removeFirst pid slides with
    | some (s, rest) =>
      if s.uploader = actingUser then
        (rest, acts ++ [⟨now, actingUser, "DELETE",
          "Deleted \x27" ++ s.title ++ "\x27"⟩], .removed "DELETE")
      else (slides, acts, .noOp)
    | none => (slides, acts, .noOp)

/-- The aggregate statistics of `create_image_combined_pdf` (src/i.py lines
402-403): `len(list(set(uploaders)))` and `sum(slide_count)`. -/
def create_image_combined_pdf_stats (slides_list : List Slide) : Nat × Nat :=
  (((slides_list.map (fun s => s.uploader)).dedup).length,
   (slides_list.map (fun s => s.slide_count)).sum)

/-- The aggregate statistics of `create_simple_combined_pdf` (src/i.py
lines 544-545), computed by the same two expressions. -/
def create_simple_combined_pdf_stats (slides_list : List Slide) : Nat × Nat :=
  (((slides_list.map (fun s => s.uploader)).dedup).length,
   (slides_list.map (fun s => s.slide_count)).sum)

/-- The aggregate statistics of `create_html_image_view` (src/i.py lines
607-608), again the same two expressions. -/
def create_html_image_view_stats (slides_list : List Slide) : Nat × Nat :=
  (((slides_list.map (fun s => s.uploader)).dedup).length,
   (slides_list.map (fun s => s.slide_count)).sum)

/-- Filesystem trace of one PDF-builder invocation: whether bytes were
returned, and how many temporary files were created and deleted. -/
structure PdfBuildTrace where
  result : Option Unit
  tempCreated : Nat
  tempDeleted : Nat
deriving DecidableEq

/-- The filesystem behaviour of `create_image_combined_pdf` (src/i.py lines
339-524).  `credsAvailable` is the check of line 342 (early return before
any file is touched); the temporary PDF is created at lines 347-349;
`servicesAvailable` is the check of lines 415-418 (early return after
creation, no unlink); `buildOk` is whether `doc.build` and the file read
(lines 509-513) succeed — any exception lands in the handler of lines
520-524, which returns `None` without unlinking; only the success path
reaches `os.unlink` (line 516).  The per-slide fetch loop performs network
calls only and every slide failure is caught and rendered as a placeholder,
so it never ends the build. -/
def create_image_combined_pdf (credsAvailable servicesAvailable buildOk : Bool)
    (slides_list : List Slide) : PdfBuildTrace :=
  if credsAvailable = false then { result := none, tempCreated := 0, tempDeleted := 0 }
  else if servicesAvailable = false then
    { result := none, tempCreated := 1, tempDeleted := 0 }
  else if buildOk = false then
    { result := none, tempCreated := 1, tempDeleted := 0 }
  else
    let _ := slides_list
    { result := some (), tempCreated := 1, tempDeleted := 1 }

/-- The filesystem behaviour of `create_simple_combined_pdf` (src/i.py
lines 526-598): the temporary file is created first (lines 529-531);
`buildOk` is whether the canvas build, `c.save()` and the file read (lines
533-590) succeed — an exception lands in the handler of lines 596-598,
which returns `None` without unlinking; `os.unlink` (line 592) runs only on
the success path. -/
def create_simple_combined_pdf (buildOk : Bool) (slides_list : List Slide) :
    PdfBuildTrace :=
  if buildOk = false then { result := none, tempCreated := 1, tempDeleted := 0 }
  else
    let _ := slides_list
    { result := some (), tempCreated := 1, tempDeleted := 1 }

/-- A concrete in-memory record, for evaluating theorems on explicit
inputs (the example of the specification, slide "A" with 5 slides). -/
def memSlideA : Slide :=
  { presentation_id := "A", title := "old", uploader := "alice",
    slide_count := 5, last_modified := "2024-01-01 10:00:00" }

/-- The matching on-disk record of the specification example: same id,
7 slides, strictly newer `last_modified`. -/
def diskSlideA : Slide :=
  { presentation_id := "A", title := "new", uploader := "alice",
    slide_count := 7, last_modified := "2024-01-02 09:00:00" }

/-- A disk-only record with a distinct id. -/
def sampleSlideB : Slide :=
  { presentation_id := "B", title := "Bdeck", uploader := "bob",
    slide_count := 2, last_modified := "2024-01-01 00:00:00" }

/-- A record uploaded by alice, for exercising the removal paths. -/
def sampleSlideX : Slide :=
  { presentation_id := "X", title := "T", uploader := "alice",
    slide_count := 3, last_modified := "2024-01-01 00:00:00" }

/-- A concrete fetch collaborator: knows presentation "A" (title "T2",
7 slides) and fails on everything else. -/
def sampleFetch : String → Option Meta :=
  fun pid => if pid = "A" then some { title := "T2", slide_count := 7 } else none

/-! Helper lemmas about the slide merge. -/

lemma slideKeys_cons (s : Slide) (l : List Slide) :
    slideKeys (s :: l) = s.presentation_id :: slideKeys l := rfl

lemma slideKeys_append (l₁ l₂ : List Slide) :
    slideKeys (l₁ ++ l₂) = slideKeys l₁ ++ slideKeys l₂ := by
  simp [slideKeys]

lemma findSlide_cons (s : Slide) (l : List Slide) (p : String) :
    findSlide (s :: l) p =
      if s.presentation_id = p then some s else findSlide l p := by
  by_cases h : s.presentation_id = p
  · simp [findSlide, List.find?_cons, h]
  · simp [findSlide, List.find?_cons, h]

lemma slideKeys_updateFirst (l : List Slide) (fs : Slide) :
    slideKeys (updateFirst l fs) = slideKeys l := by
  induction l with
  | nil => rfl
  | cons s rest ih =>
    by_cases h : s.presentation_id = fs.presentation_id
    · by_cases hlt : s.last_modified < fs.last_modified
      · simp [updateFirst, h, hlt, slideKeys_cons]
      · simp [updateFirst, h, hlt, slideKeys_cons]
    · simp [updateFirst, h, slideKeys_cons, ih]

lemma findSlide_updateFirst_ne (l : List Slide) (fs : Slide) (p : String)
    (hp : p ≠ fs.presentation_id) :
    findSlide (updateFirst l fs) p = findSlide l p := by
  induction l with
  | nil => rfl
  | cons s rest ih =>
    by_cases h : s.presentation_id = fs.presentation_id
    · have hs : s.presentation_id ≠ p := by rw [h]; exact fun he => hp he.symm
      have hf : fs.presentation_id ≠ p := fun he => hp he.symm
      by_cases hlt : s.last_modified < fs.last_modified
      · simp [updateFirst, h, hlt, findSlide_cons, hs, hf]
      · simp [updateFirst, h, hlt, findSlide_cons, hs, hf]
    · rw [updateFirst, if_neg h, findSlide_cons, findSlide_cons, ih]

lemma findSlide_updateFirst_eq (l : List Slide) (fs v : Slide)
    (h : findSlide l fs.presentation_id = some v) :
    findSlide (updateFirst l fs) fs.presentation_id =
      some (if v.last_modified < fs.last_modified then fs else v) := by
  induction l with
  | nil => simp [findSlide] at h
  | cons s rest ih =>
    by_cases hh : s.presentation_id = fs.presentation_id
    · rw [findSlide_cons, if_pos hh] at h
      injection h with hv
      subst hv
      by_cases hlt : s.last_modified < fs.last_modified
      · simp [updateFirst, hh, hlt, findSlide_cons]
      · simp [updateFirst, hh, hlt, findSlide_cons]
    · rw [findSlide_cons, if_neg hh] at h
      rw [updateFirst, if_neg hh, findSlide_cons, if_neg hh]
      exact ih h

lemma findSlide_of_mem_nodup (l : List Slide) (ms : Slide)
    (h : (slideKeys l).Nodup) (hm : ms ∈ l) :
    findSlide l ms.presentation_id = some ms := by
  induction l with
  | nil => cases hm
  | cons s rest ih =>
    rcases List.mem_cons.mp hm with rfl | hm2
    · simp [findSlide_cons]
    · have hk : (slideKeys rest).Nodup := by
        rw [slideKeys_cons] at h; exact (List.nodup_cons.mp h).2
      have hne : s.presentation_id ≠ ms.presentation_id := by
        rw [slideKeys_cons] at h
        have hnotin := (List.nodup_cons.mp h).1
        intro he
        apply hnotin
        rw [he]
        exact List.mem_map.mpr ⟨ms, hm2, rfl⟩
      rw [findSlide_cons, if_neg hne]
      exact ih hk hm2

lemma findSlide_foldl_of_ne (ids : List String) (fl : List Slide) (p : String)
    (v : Slide) :
    ∀ acc : List Slide, findSlide acc p = some v →
      (∀ x ∈ fl, x.presentation_id ≠ p) →
      findSlide (fl.foldl (mergeSlidesStep ids) acc) p = some v := by
  induction fl with
  | nil => intro acc h _; simpa using h
  | cons fs rest ih =>
    intro acc h hne
    rw [List.foldl_cons]
    refine ih _ ?_ (fun x hx => hne x (List.mem_cons_of_mem _ hx))
    have hfp : p ≠ fs.presentation_id :=
      fun he => hne fs (List.mem_cons_self _ _) he.symm
    unfold mergeSlidesStep
    by_cases hid : fs.presentation_id ∈ ids
    · rw [if_pos hid, findSlide_updateFirst_ne _ _ _ hfp]; exact h
    · rw [if_neg hid]
      unfold findSlide at h ⊢
      rw [List.find?_append, h]
      rfl

lemma mergeSlidesStep_mem (ids : List String) (acc : List Slide) (fs : Slide)
    (h : fs.presentation_id ∈ ids) : mergeSlidesStep ids acc fs = updateFirst acc fs := by
  simp [mergeSlidesStep, h]

lemma mergeSlidesStep_not_mem (ids : List String) (acc : List Slide) (fs : Slide)
    (h : fs.presentation_id ∉ ids) : mergeSlidesStep ids acc fs = acc ++ [fs] := by
  simp [mergeSlidesStep, h]

lemma slideKeys_foldl (ids : List String) (fl : List Slide) :
    ∀ acc : List Slide,
      slideKeys (fl.foldl (mergeSlidesStep ids) acc) =
        slideKeys acc ++
          slideKeys (fl.filter (fun x => !(decide (x.presentation_id ∈ ids)))) := by
  induction fl with
  | nil => intro acc; simp [slideKeys]
  | cons fs rest ih =>
    intro acc
    rw [List.foldl_cons]
    by_cases hid : fs.presentation_id ∈ ids
    · rw [mergeSlidesStep_mem _ _ _ hid, ih, slideKeys_updateFirst, List.filter_cons]
      simp [hid]
    · rw [mergeSlidesStep_not_mem _ _ _ hid, ih, List.filter_cons]
      simp [hid, slideKeys_append, slideKeys_cons, slideKeys]

lemma mergeSlides_findSlide (ss fl : List Slide) (ms fsl : Slide)
    (hs : (slideKeys ss).Nodup) (hf : (slideKeys fl).Nodup)
    (hm : ms ∈ ss) (hfm : fsl ∈ fl)
    (hpid : fsl.presentation_id = ms.presentation_id) :
    findSlide (mergeSlides ss fl) ms.presentation_id =
      some (if ms.last_modified < fsl.last_modified then fsl else ms) := by
  obtain ⟨l₁, l₂, rfl⟩ := List.append_of_mem hfm
  have hkeys : (slideKeys l₁ ++ fsl.presentation_id :: slideKeys l₂).Nodup := by
    simpa [slideKeys_append, slideKeys_cons] using hf
  rcases List.nodup_append.mp hkeys with ⟨n1, n2, disj⟩
  have hl2 : fsl.presentation_id ∉ slideKeys l₂ := (List.nodup_cons.mp n2).1
  have h1 : ∀ x ∈ l₁, x.presentation_id ≠ ms.presentation_id := by
    intro x hx he
    have hxk : x.presentation_id ∈ slideKeys l₁ := List.mem_map.mpr ⟨x, hx, rfl⟩
    have hxc : x.presentation_id ∈ fsl.presentation_id :: slideKeys l₂ := by
      rw [he, ← hpid]; exact List.mem_cons_self _ _
    exact disj hxk hxc
  have h2 : ∀ x ∈ l₂, x.presentation_id ≠ ms.presentation_id := by
    intro x hx he
    apply hl2
    rw [hpid, ← he]
    exact List.mem_map.mpr ⟨x, hx, rfl⟩
  unfold mergeSlides
  rw [List.foldl_append, List.foldl_cons]
  apply findSlide_foldl_of_ne _ _ _ _ _ ?_ h2
  have hacc : findSlide (l₁.foldl (mergeSlidesStep (slideKeys ss)) ss)
      ms.presentation_id = some ms :=
    findSlide_foldl_of_ne _ _ _ _ ss (findSlide_of_mem_nodup ss ms hs hm) h1
  have hid : fsl.presentation_id ∈ slideKeys ss := by
    rw [hpid]; exact List.mem_map.mpr ⟨ms, hm, rfl⟩
  rw [mergeSlidesStep_mem _ _ _ hid]
  have hacc2 : findSlide (l₁.foldl (mergeSlidesStep (slideKeys ss)) ss)
      fsl.presentation_id = some ms := by
    rw [hpid]; exact hacc
  have hres := findSlide_updateFirst_eq _ fsl ms hacc2
  rw [hpid] at hres
  exact hres

lemma mergeSlides_mem_keys (ss fl : List Slide) (p : String) :
    p ∈ slideKeys (mergeSlides ss fl) ↔ p ∈ slideKeys ss ∨ p ∈ slideKeys fl := by
  unfold mergeSlides
  rw [slideKeys_foldl, List.mem_append]
  constructor
  · rintro (h | h)
    · exact Or.inl h
    · refine Or.inr ?_
      rcases List.mem_map.mp h with ⟨x, hx, rfl⟩
      exact List.mem_map.mpr ⟨x, (List.mem_filter.mp hx).1, rfl⟩
  · rintro (h | h)
    · exact Or.inl h
    · by_cases hss : p ∈ slideKeys ss
      · exact Or.inl hss
      · rcases List.mem_map.mp h with ⟨x, hx, rfl⟩
        refine Or.inr (List.mem_map.mpr ⟨x, List.mem_filter.mpr ⟨hx, ?_⟩, rfl⟩)
        simpa using hss

lemma mergeSlides_keys_nodup (ss fl : List Slide)
    (hs : (slideKeys ss).Nodup) (hf : (slideKeys fl).Nodup) :
    (slideKeys (mergeSlides ss fl)).Nodup := by
  unfold mergeSlides
  rw [slideKeys_foldl]
  refine hs.append ?_ ?_
  · have hsub : List.Sublist
        (fl.filter (fun x => !(decide (x.presentation_id ∈ slideKeys ss)))) fl :=
      List.filter_sublist fl
    have hmap := hsub.map (fun s : Slide => s.presentation_id)
    exact hf.sublist hmap
  · intro a ha hb
    rcases List.mem_map.mp hb with ⟨x, hx, rfl⟩
    have hq := (List.mem_filter.mp hx).2
    simp only [Bool.not_eq_true', decide_eq_false_iff_not] at hq
    exact hq ha

/-! Helper lemmas about the update scan. -/

lemma check_for_updates_characterization (fetch : String → Option Meta)
    (now : String) :
    ∀ (slides : List Slide) (acts : List Activity),
      check_for_updates fetch now slides acts =
        (slides.map (update_step fetch now),
         acts ++ (slides.map (update_acts fetch now)).flatten) := by
  intro slides
  induction slides with
  | nil => intro acts; simp [check_for_updates]
  | cons s rest ih =>
    intro acts
    cases hfetch : fetch s.presentation_id with
    | none =>
      simp [check_for_updates, hfetch, ih, update_step, update_acts]
    | some d =>
      by_cases hc : d.slide_count ≠ s.slide_count
      · simp [check_for_updates, hfetch, hc, ih, update_step, update_acts]
      · simp [check_for_updates, hfetch, hc, ih, update_step, update_acts]

lemma update_step_of_fetch_none (fetch : String → Option Meta) (now : String)
    (s : Slide) (h : fetch s.presentation_id = none) :
    update_step fetch now s = s := by
  simp [update_step, h]

lemma update_step_changed_isSome (fetch : String → Option Meta) (now : String)
    (s : Slide) (h : update_step fetch now s ≠ s) :
    (fetch s.presentation_id).isSome = true := by
  cases hfetch : fetch s.presentation_id with
  | none => exact absurd (update_step_of_fetch_none fetch now s hfetch) h
  | some d => rfl

lemma countP_isSome_add_isNone (fetch : String → Option Meta) (slides : List Slide) :
    slides.countP (fun s => (fetch s.presentation_id).isSome) +
      slides.countP (fun s => (fetch s.presentation_id).isNone) = slides.length := by
  induction slides with
  | nil => rfl
  | cons s rest ih =>
    rw [List.countP_cons, List.countP_cons]
    cases hf : fetch s.presentation_id <;> simp [hf] <;> omega

/-! Theorems for the specification claims. -/

/-- C1: for a pair of records with the same presentation_id, one in the
in-memory slides list and one in the on-disk slides list, the merge
replaces the in-memory record wholesale with the disk record exactly when
the disk record's `last_modified` string is lexicographically strictly
greater; when it is equal or smaller the in-memory record is kept
unchanged. -/
theorem merge_replaces_slide_iff_disk_newer (session : SharedState)
    (fd : FileData) (fileSlides : List Slide) (ms fsl : Slide)
    (hfd : fd.slides = some fileSlides)
    (hs : (slideKeys session.slides).Nodup)
    (hf : (slideKeys fileSlides).Nodup)
    (hm : ms ∈ session.slides) (hfm : fsl ∈ fileSlides)
    (hpid : fsl.presentation_id = ms.presentation_id) :
    findSlide ((merge_shared_state (some fd) session).1).slides
        ms.presentation_id =
      some (if ms.last_modified < fsl.last_modified then fsl else ms) := by
  have hsl : ((merge_shared_state (some fd) session).1).slides =
      mergeSlides session.slides fileSlides := by
    simp [merge_shared_state, hfd]
  rw [hsl]
  exact mergeSlides_findSlide _ _ _ _ hs hf hm hfm hpid

/-- Witness for `merge_replaces_slide_iff_disk_newer`: the specification's
own example — record "A" stored with 5 slides is replaced by the disk copy
with 7 slides and the strictly greater timestamp. -/
theorem merge_replaces_slide_iff_disk_newer_witness :
    findSlide ((merge_shared_state
        (some { users := none, slides := some [diskSlideA], activities := none })
        ⟨[], [memSlideA], []⟩).1).slides "A" = some diskSlideA := by
  have h := merge_replaces_slide_iff_disk_newer ⟨[], [memSlideA], []⟩
      { users := none, slides := some [diskSlideA], activities := none }
      [diskSlideA] memSlideA diskSlideA rfl (by decide) (by decide)
      (by decide) (by decide) (by decide)
  have hlt : memSlideA.last_modified < diskSlideA.last_modified := by
    rw [String.lt_iff_toList_lt]
    decide
  rw [if_pos hlt] at h
  exact h

/-- C2: when presentation_id is unique within each input slides list, the
merged slides list contains every id occurring in either input, and each
such id occurs exactly once. -/
theorem merge_keys_exactly_once (session : SharedState) (fd : FileData)
    (fileSlides : List Slide)
    (hfd : fd.slides = some fileSlides)
    (hs : (slideKeys session.slides).Nodup)
    (hf : (slideKeys fileSlides).Nodup) (p : String) :
    (p ∈ slideKeys ((merge_shared_state (some fd) session).1).slides ↔
      p ∈ slideKeys session.slides ∨ p ∈ slideKeys fileSlides) ∧
    ((p ∈ slideKeys session.slides ∨ p ∈ slideKeys fileSlides) →
      (slideKeys ((merge_shared_state (some fd) session).1).slides).count p = 1) := by
  have hsl : ((merge_shared_state (some fd) session).1).slides =
      mergeSlides session.slides fileSlides := by
    simp [merge_shared_state, hfd]
  rw [hsl]
  refine ⟨mergeSlides_mem_keys _ _ _, fun hp => ?_⟩
  have hmem : p ∈ slideKeys (mergeSlides session.slides fileSlides) :=
    (mergeSlides_mem_keys _ _ _).mpr hp
  exact List.count_eq_one_of_mem (mergeSlides_keys_nodup _ _ hs hf) hmem

/-- Witness for `merge_keys_exactly_once`: merging one in-memory record
with a disk list holding the same id plus a new one leaves id "A" occurring
exactly once. -/
theorem merge_keys_exactly_once_witness :
    (slideKeys ((merge_shared_state
        (some { users := none, slides := some [diskSlideA, sampleSlideB],
                activities := none })
        ⟨[], [memSlideA], []⟩).1).slides).count "A" = 1 := by
  have h := merge_keys_exactly_once ⟨[], [memSlideA], []⟩
      { users := none, slides := some [diskSlideA, sampleSlideB], activities := none }
      [diskSlideA, sampleSlideB] rfl (by decide) (by decide) "A"
  exact h.2 (Or.inl (by decide))

/-- C3: the claim requires each PDF builder to delete its temporary working
file on every exit path including build failure; evaluating the embedded
filesystem traces shows the file is created but never deleted whenever the
build fails (or the Google services are unavailable after creation), while
a successful build does delete it — `os.unlink` only lives on the success
path (src/i.py lines 516, 592). -/
theorem pdf_temp_file_leak_on_build_failure :
    (create_image_combined_pdf true true false []).tempCreated = 1 ∧
    (create_image_combined_pdf true true false []).tempDeleted = 0 ∧
    (create_image_combined_pdf true false true []).tempCreated = 1 ∧
    (create_image_combined_pdf true false true []).tempDeleted = 0 ∧
    (create_simple_combined_pdf false []).tempCreated = 1 ∧
    (create_simple_combined_pdf false []).tempDeleted = 0 ∧
    (create_image_combined_pdf true true true []).tempDeleted = 1 ∧
    (create_simple_combined_pdf true []).tempDeleted = 1 :=
  ⟨rfl, rfl, rfl, rfl, rfl, rfl, rfl, rfl⟩

/-- C4 counterexample: with the backing file absent or unreadable
(`load_shared_state` returned `None`), `merge_shared_state` returns at
src/i.py line 82 before reaching `save_shared_state`, so this merge
invocation performs no save. -/
theorem merge_absent_file_performs_no_save :
    (merge_shared_state none ⟨[], [], []⟩).2 = false := rfl

/-- C4 (amended): a merge invocation reaches the final save exactly when
`load_shared_state` produced usable (truthy) file data; when the backing
file is absent, unreadable, or parses to a falsy document, merge returns
early, writes nothing, and leaves the in-memory state unchanged. -/
theorem merge_saves_iff_file_data (fd : Option FileData) (session : SharedState) :
    (merge_shared_state fd session).2 = fd.isSome ∧
    (merge_shared_state none session).1 = session := by
  cases fd <;> exact ⟨rfl, rfl⟩

/-- C5: `initialize_shared_state` is total (never raises): each unusable
backing-file condition yields the bootstrap default whose users mapping
holds exactly the admin user with role admin and whose slides and
activities are empty; a successful parse has each missing top-level key
filled with its default and each present key kept as parsed. -/
theorem initialize_shared_state_never_raises (hashFn : String → String)
    (u : Option (List (String × User))) (s : Option (List Slide))
    (a : Option (List Activity)) :
    initialize_shared_state hashFn .absent = defaultSharedState hashFn ∧
    initialize_shared_state hashFn .unreadable = defaultSharedState hashFn ∧
    initialize_shared_state hashFn .malformed = defaultSharedState hashFn ∧
    initialize_shared_state hashFn (.parsed u s a) =
      ⟨u.getD (adminUsers hashFn), s.getD [], a.getD []⟩ ∧
    (defaultSharedState hashFn).users =
      [("admin", { password := hashFn "admin123", role := "admin",
                   last_login := none })] ∧
    (defaultSharedState hashFn).slides = [] ∧
    (defaultSharedState hashFn).activities = [] :=
  ⟨rfl, rfl, rfl, rfl, rfl, rfl, rfl⟩

/-- C6 counterexample: for a fresh username whose password both has length
below 6 and differs from its confirmation, the handler reports the
password mismatch (src/i.py line 799) rather than the weak password the
claim prescribes, because the mismatch check runs before the length
check. -/
theorem register_mismatch_checked_before_weak :
    (register (fun s => s) "2024-01-01 00:00:00" ⟨[], [], []⟩
        "bob" "abc" "abd").1 = RegResult.passwordMismatch ∧
    RegResult.passwordMismatch ≠ RegResult.weakPassword := by
  exact ⟨by decide, by decide⟩

/-- C6 (amended): the Register handler checks, in this order, duplicate
username, password/confirmation mismatch, then the length-6 policy — the
mismatch check precedes the weak-password check; every failure leaves the
state completely unchanged; success stores the user with role member and
the hash of the password and appends a REGISTER activity. -/
theorem register_spec (hashFn : String → String) (now : String)
    (st : SharedState) (username pw confirm : String) :
    ((register hashFn now st username pw confirm).1 ≠ .ok →
      (register hashFn now st username pw confirm).2 = st) ∧
    ((register hashFn now st username pw confirm).1 = .duplicateUser ↔
      hasUser st.users username = true) ∧
    ((register hashFn now st username pw confirm).1 = .passwordMismatch ↔
      hasUser st.users username = false ∧ pw ≠ confirm) ∧
    ((register hashFn now st username pw confirm).1 = .weakPassword ↔
      hasUser st.users username = false ∧ pw = confirm ∧ pw.length < 6) ∧
    ((register hashFn now st username pw confirm).1 = .ok →
      (register hashFn now st username pw confirm).2 =
        { st with
          users := st.users ++
            [(username, { password := hashFn pw, role := "member" })],
          activities := st.activities ++
            [⟨now, username, "REGISTER", "New user registered"⟩] }) := by
  by_cases h1 : hasUser st.users username
  · simp [register, h1]
  · by_cases h2 : pw = confirm
    · subst h2
      by_cases h3 : pw.length < 6
      · simp [register, h1, h3]
      · simp [register, h1, h3]
    · simp [register, h1, h2]

/-- Witness for `register_spec`: a concrete successful registration stores
the member role and the hashed password and appends the REGISTER
activity. -/
theorem register_spec_witness :
    (register (fun s => s) "t" ⟨[], [], []⟩ "bob" "secret9" "secret9").2 =
      { users := [("bob", { password := "secret9", role := "member" })],
        slides := [],
        activities := [⟨"t", "bob", "REGISTER", "New user registered"⟩] } := by
  have h := register_spec (fun s => s) "t" ⟨[], [], []⟩ "bob" "secret9" "secret9"
  have hok := h.2.2.2.2 (by decide)
  rw [hok]
  rfl

/-- C7: the update scan is total (the embedding of the per-record
try/except), visits every record in order, leaves every record whose fetch
fails unchanged, rewrites exactly those fetched records whose slide count
differs while logging one SLIDE_UPDATE activity each, and hence updates at
most N - K records when K of the N fetches fail. -/
theorem check_for_updates_spec (fetch : String → Option Meta) (now : String)
    (slides : List Slide) (acts : List Activity) :
    (check_for_updates fetch now slides acts).1 =
      slides.map (update_step fetch now) ∧
    (check_for_updates fetch now slides acts).2 =
      acts ++ (slides.map (update_acts fetch now)).flatten ∧
    (∀ s : Slide, fetch s.presentation_id = none →
      update_step fetch now s = s ∧ update_acts fetch now s = []) ∧
    (∀ (s : Slide) (d : Meta), fetch s.presentation_id = some d →
      d.slide_count = s.slide_count →
      update_step fetch now s = s ∧ update_acts fetch now s = []) ∧
    (∀ (s : Slide) (d : Meta), fetch s.presentation_id = some d →
      d.slide_count ≠ s.slide_count →
      update_step fetch now s =
        { s with slide_count := d.slide_count, last_modified := now,
                 title := d.title } ∧
      update_acts fetch now s =
        [⟨now, s.uploader, "SLIDE_UPDATE",
          "Updated \x27" ++ d.title ++ "\x27 from " ++ toString s.slide_count ++
          " to " ++ toString d.slide_count ++ " slides"⟩]) ∧
    slides.countP (fun s => decide (update_step fetch now s ≠ s)) +
        slides.countP (fun s => (fetch s.presentation_id).isNone) ≤
      slides.length := by
  refine ⟨?_, ?_, ?_, ?_, ?_, ?_⟩
  · rw [check_for_updates_characterization]
  · rw [check_for_updates_characterization]
  · intro s h
    exact ⟨by simp [update_step, h], by simp [update_acts, h]⟩
  · intro s d h hc
    exact ⟨by simp [update_step, h, hc], by simp [update_acts, h, hc]⟩
  · intro s d h hc
    exact ⟨by simp [update_step, h, hc], by simp [update_acts, h, hc]⟩
  · have hmono : slides.countP (fun s => decide (update_step fetch now s ≠ s)) ≤
        slides.countP (fun s => (fetch s.presentation_id).isSome) := by
      apply List.countP_mono_left
      intro s _ hs
      simp only [decide_eq_true_eq] at hs
      exact update_step_changed_isSome fetch now s hs
    have hpart := countP_isSome_add_isNone fetch slides
    omega

/-- Witness for `check_for_updates_spec`: a concrete scan over one record
whose fetch succeeds with a different count rewrites the record. -/
theorem check_for_updates_spec_witness :
    update_step sampleFetch "t" memSlideA =
      { memSlideA with slide_count := 7, last_modified := "t", title := "T2" } := by
  have h := check_for_updates_spec sampleFetch "t" [memSlideA] []
  exact (h.2.2.2.2.1 memSlideA { title := "T2", slide_count := 7 }
    (by decide) (by decide)).1

/-- C8 counterexample: a non-admin attempting to remove a record uploaded
by someone else is a silent no-op (the UI offers no delete action), not a
Forbidden failure as the claim states; likewise an absent id yields a
silent no-op, not a NotFound failure. -/
theorem remove_produces_no_forbidden_or_notfound :
    (removePresentation "2024-01-02 00:00:00" [sampleSlideX] [] "X" "bob"
        false).2.2 = RemoveOutcome.noOp ∧
    RemoveOutcome.noOp ≠ RemoveOutcome.forbidden ∧
    (removePresentation "2024-01-02 00:00:00" [] [] "X" "bob" true).2.2 =
      RemoveOutcome.noOp ∧
    RemoveOutcome.noOp ≠ RemoveOutcome.notFound := by
  refine ⟨by decide, by decide, by decide, by decide⟩

/-- C8 (amended): when no record has the id, the removal paths are a
silent no-op (no NotFound failure is produced); when the record exists, an
admin removes it regardless of owner and an ADMIN_DELETE activity is
appended, and a non-admin removal is available exactly when the acting
user is the uploader, appending a DELETE activity; for another uploader's
record the state is unchanged and no Forbidden failure value is produced
(the UI simply offers no action). -/
theorem removePresentation_spec (now : String) (slides : List Slide)
    (acts : List Activity) (pid actingUser : String) (isAdmin : Bool) :
    (removeFirst pid slides = none →
      removePresentation now slides acts pid actingUser isAdmin =
        (slides, acts, .noOp)) ∧
    (∀ (s : Slide) (rest : List Slide),
      removeFirst pid slides = some (s, rest) →
      (isAdmin = true →
        removePresentation now slides acts pid actingUser isAdmin =
          (rest, acts ++ [⟨now, actingUser, "ADMIN_DELETE",
            "Admin removed \x27" ++ s.title ++ "\x27"⟩],
           .removed "ADMIN_DELETE")) ∧
      (isAdmin = false → s.uploader = actingUser →
        removePresentation now slides acts pid actingUser isAdmin =
          (rest, acts ++ [⟨now, actingUser, "DELETE",
            "Deleted \x27" ++ s.title ++ "\x27"⟩], .removed "DELETE")) ∧
      (isAdmin = false → s.uploader ≠ actingUser →
        removePresentation now slides acts pid actingUser isAdmin =
          (slides, acts, .noOp))) ∧
    (removePresentation now slides acts pid actingUser isAdmin).2.2 ≠
      RemoveOutcome.notFound ∧
    (removePresentation now slides acts pid actingUser isAdmin).2.2 ≠
      RemoveOutcome.forbidden := by
  cases hrf : removeFirst pid slides with
  | none =>
    cases isAdmin <;> simp [removePresentation, hrf]
  | some p =>
    obtain ⟨s0, rest0⟩ := p
    cases isAdmin with
    | false =>
      by_cases hu : s0.uploader = actingUser <;>
        simp [removePresentation, hrf, hu]
    | true =>
      simp [removePresentation, hrf]

/-- Witness for `removePresentation_spec`: a concrete admin removal of
another user's record removes it and logs ADMIN_DELETE. -/
theorem removePresentation_spec_witness :
    removePresentation "t2" [sampleSlideX] [] "X" "carol" true =
      ([], [⟨"t2", "carol", "ADMIN_DELETE",
        "Admin removed \x27" ++ sampleSlideX.title ++ "\x27"⟩],
       .removed "ADMIN_DELETE") := by
  have h := removePresentation_spec "t2" [sampleSlideX] [] "X" "carol" true
  exact (h.2.1 sampleSlideX [] (by decide)).1 rfl

/-- C9: the three report builders compute identical aggregate statistics on
the same input: the member figure is the cardinality of the set of uploader
fields and the slides figure is the sum of the slide_count fields. -/
theorem report_stats_agree (slides_list : List Slide) :
    create_image_combined_pdf_stats slides_list =
      create_simple_combined_pdf_stats slides_list ∧
    create_simple_combined_pdf_stats slides_list =
      create_html_image_view_stats slides_list ∧
    (create_image_combined_pdf_stats slides_list).1 =
      (slides_list.map (fun s => s.uploader)).toFinset.card ∧
    (create_image_combined_pdf_stats slides_list).2 =
      (slides_list.map (fun s => s.slide_count)).sum := by
  refine ⟨rfl, rfl, ?_, rfl⟩
  simp [create_image_combined_pdf_stats, List.card_toFinset]

/-- C10: when the fetched slide count differs from the stored one, the scan
does not only rewrite slide_count — the record's title is overwritten with
the freshly fetched title and last_modified is reset to the current time,
the very timestamp the merge conflict resolution later compares. -/
theorem check_for_updates_overwrites_title_and_timestamp
    (fetch : String → Option Meta) (now : String) (slides : List Slide)
    (acts : List Activity) (i : Nat) (s : Slide) (d : Meta)
    (hi : slides[i]? = some s)
    (hfetch : fetch s.presentation_id = some d)
    (hc : d.slide_count ≠ s.slide_count) :
    (check_for_updates fetch now slides acts).1[i]? =
      some { s with slide_count := d.slide_count, last_modified := now,
                    title := d.title } := by
  have hmap : (check_for_updates fetch now slides acts).1 =
      slides.map (update_step fetch now) := by
    rw [check_for_updates_characterization]
  rw [hmap, List.getElem?_map, hi]
  simp [update_step, hfetch, hc]

/-- Witness for `check_for_updates_overwrites_title_and_timestamp` at a
concrete one-record scan. -/
theorem check_for_updates_overwrites_title_and_timestamp_witness :
    (check_for_updates sampleFetch "t" [memSlideA] []).1[0]? =
      some { memSlideA with
              slide_count := 7, last_modified := "t", title := "T2" } :=
  check_for_updates_overwrites_title_and_timestamp sampleFetch "t"
    [memSlideA] [] 0 memSlideA { title := "T2", slide_count := 7 }
    (by decide) (by decide) (by decide)
